import Mathlib

/-!
Verification of the bank-statement extraction pipeline in `src/app.py`.

The embedding models: row normalization (lines 163-189), per-page table
scanning with header drop (lines 158-163), chunked accumulation and the
flush policy (lines 191-215), the sheet helpers
`init_worksheet_with_header` (lines 91-98) and `append_chunk_to_worksheet`
(lines 101-117), and the driver `process_pdf_and_stream_to_gsheet`
(lines 124-223).  Interactions with the external world (worksheet writes,
progress-callback invocations) are recorded as an explicit event trace.
-/

namespace BankApp

/-- One raw table cell as returned by the external table extractor
(`page.extract_table()`): a string, or `none` for a null cell. -/
abbrev Cell := Option String

/-- A table matrix returned for one page. -/
abbrev Table := List (List Cell)

/-- Result of `page.extract_table()`: `none` models Python `None`
(no table detected on the page). -/
abbrev Page := Option Table

/-- `ORDERED_COLS` (src/app.py lines 49-58): canonical column order. -/
def ORDERED_COLS : List String :=
  ["Posting Date", "Value Date", "Transaction Branch", "Reference Number",
   "Description", "Debit", "Credit", "Balance"]

/-- `CHUNK_PAGES = 50` (src/app.py line 45).  The driver below takes the
flush threshold as a parameter `cp` so that statements about other
configured values can be made; the source's module constant is 50. -/
def CHUNK_PAGES : Nat := 50

/-- Line 165: `row = (row + [""] * 8)[:8]` — pad on the right with empty
strings, then keep the first 8 cells. -/
def normalizeCells (row : List Cell) : List Cell :=
  (row ++ List.replicate 8 (some "")).take 8

/-- A transaction record: the dict built at lines 177-188, kept as an
ordered association list from canonical column name to cell value. -/
abbrev TransactionRecord := List (String × Cell)

/-- Lines 163-189: the 8 normalized cells are destructured and rebuilt as
a dict with the canonical keys in canonical order. -/
def normalize (row : List Cell) : TransactionRecord :=
  ORDERED_COLS.zip (normalizeCells row)

/-- Lines 163-189 applied to one page's table: `table[1:]` drops the
page-local header row, and each remaining row is normalized in order.
(Python truthiness of `table` itself is handled in `pageStep`.) -/
def scanPage (p : Page) : List TransactionRecord :=
  match p with
  | none => []
  | some t => (t.drop 1).map normalize

/-- Python truthiness of `table` at line 159: `None` and `[]` are falsy. -/
def tableTruthy : Page → Bool
  | none => false
  | some [] => false
  | some (_ :: _) => true

/-- Line 110: `df_chunk.astype(str)` sends a null cell through Python
`str`, producing the four-letter string "None"; the subsequent
`.fillna("")` then acts on a frame that no longer contains nulls, so it
changes nothing. -/
def serializeCell : Cell → String
  | some s => s
  | none => "None"

/-- Lines 109-110: `df_chunk[ORDERED_COLS]` selects the columns by name in
canonical order (every record built by `normalize` carries exactly these
keys, so the `getD` default is never reached), then each cell is
stringified. -/
def serializeRecord (r : TransactionRecord) : List String :=
  ORDERED_COLS.map (fun k => serializeCell ((r.lookup k).getD none))

/-- Observable effects of one run: worksheet mutations issued to the
destination store, progress-callback invocations, and a marker placed at
the point where a page's rows have been extracted and accumulated. -/
inductive Event where
  | sheetClear : Event
  | sheetUpdate (startRow : Nat) (values : List (List String)) : Event
  | progressEv (currentPage totalPages : Nat) : Event
  | pageScanned (pageIdx : Nat) (records : List TransactionRecord) : Event
deriving DecidableEq

/-- `init_worksheet_with_header` (lines 91-98): clear the worksheet,
write the canonical header at row 1, return the next data row, 2. -/
def init_worksheet_with_header : List Event × Nat :=
  ([Event.sheetClear, Event.sheetUpdate 1 [ORDERED_COLS]], 2)

/-- `append_chunk_to_worksheet` (lines 101-117): a no-op on an empty
chunk; otherwise serialize the records and write them at `A<start_row>`,
returning `start_row + len(values)`.  The first component is the list of
sheet operations performed. -/
def append_chunk_to_worksheet (batch : List TransactionRecord) (start_row : Nat) :
    List Event × Nat :=
  if batch.isEmpty then ([], start_row)
  else
    let values := batch.map serializeRecord
    ([Event.sheetUpdate start_row values], start_row + values.length)

/-- The driver's loop state: `total_records`, `chunk_records`,
`next_row_index`, a log of every `append_chunk_to_worksheet` call
(start row and the batch handed over), and the event trace. -/
structure LoopSt where
  total : Nat
  chunk : List TransactionRecord
  nextRow : Nat
  calls : List (Nat × List TransactionRecord)
  trace : List Event

/-- Body of the page loop (lines 153-203): first the progress callback is
invoked when one was supplied, then the table is extracted; a falsy table
hits `continue` (skipping the flush check), otherwise `table[1:]` is
accumulated and a flush happens when `page_idx % CHUNK_PAGES == 0` and
the chunk is non-empty. -/
def pageStep (cp N : Nat) (cb : Bool) (idx : Nat) (st : LoopSt) (p : Page) : LoopSt :=
  let progressEvts := if cb ∧ 0 < N then [Event.progressEv idx N] else []
  if tableTruthy p then
    let recs := scanPage p
    let chunk' := st.chunk ++ recs
    let scanEvts := [Event.pageScanned idx recs]
    if idx % cp = 0 ∧ chunk' ≠ [] then
      let res := append_chunk_to_worksheet chunk' st.nextRow
      ⟨st.total + recs.length, [], res.2,
       st.calls ++ [(st.nextRow, chunk')],
       st.trace ++ (progressEvts ++ scanEvts ++ res.1)⟩
    else
      ⟨st.total + recs.length, chunk', st.nextRow, st.calls,
       st.trace ++ (progressEvts ++ scanEvts)⟩
  else
    { st with trace := st.trace ++ (progressEvts ++ [Event.pageScanned idx []]) }

/-- The for-loop over `enumerate(pdf.pages, start=1)` (line 153). -/
def runPages (cp N : Nat) (cb : Bool) : Nat → LoopSt → List Page → LoopSt
  | _, st, [] => st
  | idx, st, p :: ps => runPages cp N cb (idx + 1) (pageStep cp N cb idx st p) ps

/-- Lines 205-215: flush any remaining records after the last page. -/
def finalFlush (st : LoopSt) : LoopSt :=
  if st.chunk ≠ [] then
    let res := append_chunk_to_worksheet st.chunk st.nextRow
    ⟨st.total, [], res.2, st.calls ++ [(st.nextRow, st.chunk)], st.trace ++ res.1⟩
  else st

/-- Result of one driver run.  `total = none` models the failure path of
`pdfplumber.open` (a `ParseFailure`): the exception propagates and no
record count is returned. -/
structure RunResult where
  total : Option Nat
  finalRow : Nat
  calls : List (Nat × List TransactionRecord)
  trace : List Event

/-- `process_pdf_and_stream_to_gsheet` (lines 124-223).  The worksheet
header is initialized (lines 142-144) before `pdfplumber.open` is tried
(line 148); `doc = none` models a document whose bytes fail to open, in
which case the run aborts after the header writes and before any page is
processed.  `cb` records whether a `progress_callback` was supplied. -/
def process_pdf_and_stream_to_gsheet (cp : Nat) (cb : Bool) (doc : Option (List Page)) :
    RunResult :=
  let ini := init_worksheet_with_header
  match doc with
  | none => ⟨none, ini.2, [], ini.1⟩
  | some pages =>
      let st := runPages cp pages.length cb 1 ⟨0, [], ini.2, [], ini.1⟩ pages
      let st := finalFlush st
      ⟨some st.total, st.nextRow, st.calls, st.trace⟩

/-! ### Basic facts about normalization -/

lemma normalizeCells_eq (row : List Cell) :
    normalizeCells row = row.take 8 ++ List.replicate (8 - row.length) (some "") := by
  unfold normalizeCells
  rw [List.take_append_eq_append_take, List.take_replicate]
  have h : min (8 - row.length) 8 = 8 - row.length := by omega
  rw [h]

lemma normalizeCells_length (row : List Cell) : (normalizeCells row).length = 8 := by
  rw [normalizeCells_eq]
  simp [List.length_take]
  omega

/-- C1: the Row Normalizer is total and positional — for every raw row the
produced record has exactly the 8 canonical keys in the fixed canonical
order, its values are the row's first 8 cells padded on the right with
empty-string cells up to length 8 (rows longer than 8 are truncated to
their first 8 cells), and, being a Lean function, it never fails. -/
theorem normalize_shape (row : List Cell) :
    (normalize row).map Prod.fst = ORDERED_COLS ∧
    (normalize row).map Prod.snd = row.take 8 ++ List.replicate (8 - row.length) (some "") ∧
    (normalize row).length = 8 := by
  have h8 : (normalizeCells row).length = 8 := normalizeCells_length row
  refine ⟨?_, ?_, ?_⟩
  · exact List.map_fst_zip _ _ (by rw [h8]; decide)
  · rw [show normalize row = ORDERED_COLS.zip (normalizeCells row) from rfl,
      List.map_snd_zip _ _ (by rw [h8]; decide), normalizeCells_eq]
  · rw [show normalize row = ORDERED_COLS.zip (normalizeCells row) from rfl,
      List.length_zip, h8]
    decide

/-- C2: the first row of a page's table is dropped unconditionally and the
rest are normalized in order; a page with no detected table or a table of
fewer than 2 rows contributes zero records and leaves the driver state
(records, chunk, sink calls) untouched, without any error. -/
theorem page_header_skip :
    (∀ h d1 d2 : List Cell, scanPage (some [h, d1, d2]) = [normalize d1, normalize d2]) ∧
    (∀ t : Table, t.length < 2 → scanPage (some t) = []) ∧
    (∀ cp N cb idx st, (pageStep cp N cb idx st none).total = st.total ∧
      (pageStep cp N cb idx st none).chunk = st.chunk ∧
      (pageStep cp N cb idx st none).calls = st.calls) ∧
    (∀ cp N cb idx st h, (pageStep cp N cb idx st (some [h])).total = st.total) := by
  refine ⟨fun h d1 d2 => rfl, ?_, ?_, ?_⟩
  · intro t ht
    match t with
    | [] => rfl
    | [a] => rfl
    | a :: b :: t' => simp at ht; omega
  · intro cp N cb idx st
    simp [pageStep, tableTruthy]
  · intro cp N cb idx st h
    simp only [pageStep, tableTruthy, scanPage]
    split
    · split <;> simp
    · simp

/-- Witness for `page_header_skip` at concrete inputs. -/
theorem page_header_skip_w :
    scanPage (some [[some "H"], [some "a"], [some "b"]]) =
      [normalize [some "a"], normalize [some "b"]] ∧
    scanPage (some [[some "H"]]) = [] :=
  ⟨page_header_skip.1 _ _ _, page_header_skip.2.1 _ (by decide)⟩

/-- C5: appending an empty batch performs no sheet operation and returns
the write position unchanged. -/
theorem empty_batch_noop (start_row : Nat) :
    append_chunk_to_worksheet [] start_row = ([], start_row) := rfl

/-! ### Trace-extension lemmas -/

lemma pageStep_trace_ext (cp N : Nat) (cb : Bool) (idx : Nat) (st : LoopSt) (p : Page) :
    ∃ l, (pageStep cp N cb idx st p).trace = st.trace ++ l := by
  simp only [pageStep]
  split
  · split
    · exact ⟨_, rfl⟩
    · exact ⟨_, rfl⟩
  · exact ⟨_, rfl⟩

lemma runPages_trace_ext (cp N : Nat) (cb : Bool) (ps : List Page) :
    ∀ (idx : Nat) (st : LoopSt), ∃ l, (runPages cp N cb idx st ps).trace = st.trace ++ l := by
  induction ps with
  | nil => exact fun idx st => ⟨[], by simp [runPages]⟩
  | cons p ps ih =>
      intro idx st
      obtain ⟨l₁, h₁⟩ := pageStep_trace_ext cp N cb idx st p
      obtain ⟨l₂, h₂⟩ := ih (idx + 1) (pageStep cp N cb idx st p)
      exact ⟨l₁ ++ l₂, by rw [runPages, h₂, h₁, List.append_assoc]⟩

lemma finalFlush_trace_ext (st : LoopSt) :
    ∃ l, (finalFlush st).trace = st.trace ++ l := by
  unfold finalFlush
  split
  · exact ⟨_, rfl⟩
  · exact ⟨[], by simp⟩

/-- C6: the header-initialization operation clears the worksheet, writes
the 8 canonical column names as row 1, and returns write position 2; and
every run (whether the document opens or not) starts its destination
operations with exactly that clear-then-header pair, so prior worksheet
data is replaced from scratch on every run. -/
theorem init_header_spec :
    init_worksheet_with_header =
      ([Event.sheetClear, Event.sheetUpdate 1 [ORDERED_COLS]], 2) ∧
    ∀ cp cb doc, (process_pdf_and_stream_to_gsheet cp cb doc).trace.take 2 =
      [Event.sheetClear, Event.sheetUpdate 1 [ORDERED_COLS]] := by
  refine ⟨rfl, ?_⟩
  intro cp cb doc
  cases doc with
  | none => rfl
  | some pages =>
      simp only [process_pdf_and_stream_to_gsheet, init_worksheet_with_header]
      obtain ⟨l₂, h₂⟩ := finalFlush_trace_ext
        (runPages cp pages.length cb 1
          ⟨0, [], 2, [], [Event.sheetClear, Event.sheetUpdate 1 [ORDERED_COLS]]⟩ pages)
      obtain ⟨l₁, h₁⟩ := runPages_trace_ext cp pages.length cb pages 1
        ⟨0, [], 2, [], [Event.sheetClear, Event.sheetUpdate 1 [ORDERED_COLS]]⟩
      rw [h₂, h₁, List.append_assoc]
      rfl

/-- C8 counterexample: on a document whose bytes fail to open, the run
aborts (`total = none`), yet the destination store has already been
written to — the trace shows the worksheet was cleared and the header row
written, contradicting the claim that no destination write occurs. -/
theorem open_failure_cex :
    (process_pdf_and_stream_to_gsheet 50 false none).total = none ∧
    (process_pdf_and_stream_to_gsheet 50 false none).trace =
      [Event.sheetClear, Event.sheetUpdate 1 [ORDERED_COLS]] ∧
    (process_pdf_and_stream_to_gsheet 50 false none).trace ≠ [] := by
  refine ⟨rfl, rfl, by decide⟩

/-- C8 amended: when the source document cannot be opened, the pipeline
aborts before any data-row write (no batch-append call is made), but
after the destination worksheet has been cleared and its header written —
header initialization precedes the document-open attempt in this
implementation. -/
theorem open_failure_spec (cp : Nat) (cb : Bool) :
    (process_pdf_and_stream_to_gsheet cp cb none).total = none ∧
    (process_pdf_and_stream_to_gsheet cp cb none).calls = [] ∧
    (process_pdf_and_stream_to_gsheet cp cb none).trace =
      [Event.sheetClear, Event.sheetUpdate 1 [ORDERED_COLS]] :=
  ⟨rfl, rfl, rfl⟩

/-! ### Concrete documents used in the claims -/

/-- A page whose table is a header row plus one data row: it contributes
exactly one record. -/
def onerec : Page := some [[some "H"], [some "d"]]

/-- Five pages, one record each. -/
def fiveDoc : List Page := List.replicate 5 onerec

/-- Three pages: one record, then a page with no detected table, then one
record.  The middle page hits `continue`, skipping the flush check. -/
def gapDoc : List Page := [onerec, none, onerec]

/-- C3 counterexample: with `CHUNK_PAGES = 2`, after pages 1 and 2 of
`gapDoc` (two pages processed since the start and no flush ever, batch
non-empty), no flush has occurred — page 2 has no table, so `continue`
skips the flush check even though the page counter reached the threshold;
the whole run hands the sink a single batch of size 2 at row 2 instead of
the batches of size 1 at rows 2 and 3 that the claimed flush rule
dictates. -/
theorem flush_schedule_cex :
    (runPages 2 3 false 1 ⟨0, [], 2, [], []⟩ [onerec, none]).chunk ≠ [] ∧
    (runPages 2 3 false 1 ⟨0, [], 2, [], []⟩ [onerec, none]).calls = [] ∧
    (process_pdf_and_stream_to_gsheet 2 false (some gapDoc)).calls.map
      (fun c => (c.1, c.2.length)) = [(2, 2)] := by
  refine ⟨by decide, by decide, by decide⟩

/-- C3 amended: with `CHUNK_PAGES = 2` and a 5-page document contributing
1 record per page, the sink receives exactly the batches of sizes 2, 2, 1
at write positions 2, 4, 6, and the position ends at 7; in general a
mid-run flush happens at a page exactly when that page's table is truthy
(a page with no detected table skips the flush check via `continue`), the
1-based page index is a multiple of `CHUNK_PAGES`, and the accumulated
batch is non-empty; and a final flush happens after the last page exactly
when the batch is non-empty. -/
theorem flush_schedule :
    ((process_pdf_and_stream_to_gsheet 2 false (some fiveDoc)).calls.map
        (fun c => (c.1, c.2.length)) = [(2, 2), (4, 2), (6, 1)] ∧
      (process_pdf_and_stream_to_gsheet 2 false (some fiveDoc)).finalRow = 7 ∧
      (process_pdf_and_stream_to_gsheet 2 false (some fiveDoc)).total = some 5) ∧
    (∀ cp N cb idx st p, 0 < cp →
      (pageStep cp N cb idx st p).calls = st.calls ++
        (if tableTruthy p = true ∧ idx % cp = 0 ∧ st.chunk ++ scanPage p ≠ []
         then [(st.nextRow, st.chunk ++ scanPage p)] else [])) ∧
    (∀ st : LoopSt, (finalFlush st).calls = st.calls ++
      (if st.chunk ≠ [] then [(st.nextRow, st.chunk)] else [])) := by
  refine ⟨⟨by decide, by decide, by decide⟩, ?_, ?_⟩
  · intro cp N cb idx st p hcp
    simp only [pageStep]
    split
    · split
      · rename_i htr hfl
        show st.calls ++ [(st.nextRow, st.chunk ++ scanPage p)] = st.calls ++
          (if tableTruthy p = true ∧ idx % cp = 0 ∧ st.chunk ++ scanPage p ≠ []
           then [(st.nextRow, st.chunk ++ scanPage p)] else [])
        rw [if_pos ⟨htr, hfl⟩]
      · rename_i htr hfl
        show st.calls = st.calls ++
          (if tableTruthy p = true ∧ idx % cp = 0 ∧ st.chunk ++ scanPage p ≠ []
           then [(st.nextRow, st.chunk ++ scanPage p)] else [])
        rw [if_neg (fun h => hfl h.2), List.append_nil]
    · rename_i htr
      show st.calls = st.calls ++
        (if tableTruthy p = true ∧ idx % cp = 0 ∧ st.chunk ++ scanPage p ≠ []
         then [(st.nextRow, st.chunk ++ scanPage p)] else [])
      rw [if_neg (fun h => htr h.1), List.append_nil]
  · intro st
    unfold finalFlush
    split
    · rename_i h; simp [h]
    · rename_i h; simp [h]

/-- Witness for `flush_schedule` at a concrete flushing step. -/
theorem flush_schedule_w :
    0 < 2 ∧
    (pageStep 2 5 false 2 ⟨1, [normalize [some "d"]], 2, [], []⟩ onerec).calls =
      (⟨1, [normalize [some "d"]], 2, [], []⟩ : LoopSt).calls ++
        (if tableTruthy onerec = true ∧ 2 % 2 = 0 ∧
            (⟨1, [normalize [some "d"]], 2, [], []⟩ : LoopSt).chunk ++ scanPage onerec ≠ []
         then [((⟨1, [normalize [some "d"]], 2, [], []⟩ : LoopSt).nextRow,
                (⟨1, [normalize [some "d"]], 2, [], []⟩ : LoopSt).chunk ++ scanPage onerec)]
         else []) :=
  ⟨by decide, flush_schedule.2.1 2 5 false 2 ⟨1, [normalize [some "d"]], 2, [], []⟩ onerec
    (by decide)⟩

/-! ### The write-position / record-count invariant -/

/-- Sum of the sizes of the batches handed to the sink. -/
def sumSizes (l : List (Nat × List TransactionRecord)) : Nat :=
  (l.map (fun c => c.2.length)).sum

@[simp] lemma sumSizes_nil : sumSizes [] = 0 := rfl

@[simp] lemma sumSizes_cons (c : Nat × List TransactionRecord)
    (l : List (Nat × List TransactionRecord)) :
    sumSizes (c :: l) = c.2.length + sumSizes l := by
  simp [sumSizes]

@[simp] lemma sumSizes_append (l₁ l₂ : List (Nat × List TransactionRecord)) :
    sumSizes (l₁ ++ l₂) = sumSizes l₁ + sumSizes l₂ := by
  simp [sumSizes]

/-- The batch-append calls form a chain: each call starts at the current
position and advances it by the batch's length. -/
def chainFrom : Nat → List (Nat × List TransactionRecord) → Prop
  | _, [] => True
  | p, c :: rest => c.1 = p ∧ chainFrom (p + c.2.length) rest

lemma chainFrom_append (p : Nat) (l : List (Nat × List TransactionRecord))
    (r : Nat) (b : List TransactionRecord)
    (h : chainFrom p l) (hr : r = p + sumSizes l) :
    chainFrom p (l ++ [(r, b)]) := by
  induction l generalizing p with
  | nil =>
      refine ⟨?_, trivial⟩
      simpa [sumSizes] using hr
  | cons c cs ih =>
      obtain ⟨h1, h2⟩ := h
      refine ⟨h1, ih _ h2 ?_⟩
      simp at hr
      omega

lemma chainFrom_chain' (l : List (Nat × List TransactionRecord)) :
    ∀ p, chainFrom p l → List.Chain' (· ≤ ·) (l.map Prod.fst ++ [p + sumSizes l]) := by
  induction l with
  | nil => intro p _; simp
  | cons c cs ih =>
      intro p h
      obtain ⟨h1, h2⟩ := h
      have hch := ih (p + c.2.length) h2
      have harr : p + sumSizes (c :: cs) = p + c.2.length + sumSizes cs := by
        simp; omega
      rw [List.map_cons, List.cons_append, harr]
      refine List.Chain'.cons' hch ?_
      intro y hy
      cases cs with
      | nil =>
          simp at hy
          omega
      | cons c' cs' =>
          obtain ⟨h1', _⟩ := h2
          simp at hy
          omega

lemma append_chunk_snd (b : List TransactionRecord) (r : Nat) :
    (append_chunk_to_worksheet b r).2 = r + b.length := by
  cases b <;> simp [append_chunk_to_worksheet]

/-- Invariant tying together the running total, the accumulated chunk,
the next write row and the log of batch-append calls. -/
def Inv (st : LoopSt) : Prop :=
  st.total = sumSizes st.calls + st.chunk.length ∧
  st.nextRow = 2 + sumSizes st.calls ∧
  chainFrom 2 st.calls

lemma pageStep_inv (cp N : Nat) (cb : Bool) (idx : Nat) (st : LoopSt) (p : Page)
    (h : Inv st) : Inv (pageStep cp N cb idx st p) := by
  obtain ⟨h1, h2, h3⟩ := h
  simp only [pageStep]
  split
  · split
    · refine ⟨?_, ?_, ?_⟩
      · show st.total + (scanPage p).length =
          sumSizes (st.calls ++ [(st.nextRow, st.chunk ++ scanPage p)]) +
            ([] : List TransactionRecord).length
        simp
        omega
      · show (append_chunk_to_worksheet (st.chunk ++ scanPage p) st.nextRow).2 =
          2 + sumSizes (st.calls ++ [(st.nextRow, st.chunk ++ scanPage p)])
        rw [append_chunk_snd]
        simp
        omega
      · exact chainFrom_append 2 st.calls st.nextRow (st.chunk ++ scanPage p) h3 h2
    · refine ⟨?_, h2, h3⟩
      show st.total + (scanPage p).length =
        sumSizes st.calls + (st.chunk ++ scanPage p).length
      simp
      omega
  · exact ⟨h1, h2, h3⟩

lemma runPages_inv (cp N : Nat) (cb : Bool) (ps : List Page) :
    ∀ (idx : Nat) (st : LoopSt), Inv st → Inv (runPages cp N cb idx st ps) := by
  induction ps with
  | nil => exact fun idx st h => h
  | cons p ps ih =>
      exact fun idx st h => ih (idx + 1) _ (pageStep_inv cp N cb idx st p h)

lemma finalFlush_inv (st : LoopSt) (h : Inv st) : Inv (finalFlush st) := by
  obtain ⟨h1, h2, h3⟩ := h
  unfold finalFlush
  split
  · refine ⟨?_, ?_, ?_⟩
    · show st.total = sumSizes (st.calls ++ [(st.nextRow, st.chunk)]) +
        ([] : List TransactionRecord).length
      simp
      omega
    · show (append_chunk_to_worksheet st.chunk st.nextRow).2 =
        2 + sumSizes (st.calls ++ [(st.nextRow, st.chunk)])
      rw [append_chunk_snd]
      simp
      omega
    · exact chainFrom_append 2 st.calls st.nextRow st.chunk h3 h2
  · exact ⟨h1, h2, h3⟩

lemma finalFlush_chunk (st : LoopSt) : (finalFlush st).chunk = [] := by
  unfold finalFlush
  split
  · rfl
  · rename_i h
    exact not_not.mp h

lemma run_inv (cp : Nat) (cb : Bool) (pages : List Page) :
    Inv (finalFlush (runPages cp pages.length cb 1
      ⟨0, [], 2, [], [Event.sheetClear, Event.sheetUpdate 1 [ORDERED_COLS]]⟩ pages)) ∧
    (finalFlush (runPages cp pages.length cb 1
      ⟨0, [], 2, [], [Event.sheetClear, Event.sheetUpdate 1 [ORDERED_COLS]]⟩ pages)).chunk
      = [] := by
  refine ⟨finalFlush_inv _ (runPages_inv cp pages.length cb pages 1 _ ?_), finalFlush_chunk _⟩
  exact ⟨rfl, rfl, trivial⟩

/-- C4: for every document processed to completion, the total record
count returned by the driver equals the sum of the sizes of all batches
ever passed to `append_chunk_to_worksheet` during the run. -/
theorem conservation (cp : Nat) (cb : Bool) (pages : List Page) (_hcp : 0 < cp) :
    (process_pdf_and_stream_to_gsheet cp cb (some pages)).total =
      some (sumSizes (process_pdf_and_stream_to_gsheet cp cb (some pages)).calls) := by
  obtain ⟨⟨h1, _, _⟩, hch⟩ := run_inv cp cb pages
  rw [hch] at h1
  simp only [List.length_nil, Nat.add_zero] at h1
  simp only [process_pdf_and_stream_to_gsheet, init_worksheet_with_header]
  exact congrArg some h1

/-- Witness for `conservation` on the five-page document. -/
theorem conservation_w :
    0 < 2 ∧
    (process_pdf_and_stream_to_gsheet 2 false (some fiveDoc)).total =
      some (sumSizes (process_pdf_and_stream_to_gsheet 2 false (some fiveDoc)).calls) :=
  ⟨by decide, conservation 2 false fiveDoc (by decide)⟩

/-- C10: over any successful run the write position is monotonically
non-decreasing — the batch-append calls form a chain that starts at
position 2 (the value returned by header initialization), each flush of a
batch of n records advances the position by exactly n, and the final
position equals 2 plus the returned total record count. -/
theorem write_position_chain (cp : Nat) (cb : Bool) (pages : List Page) (_hcp : 0 < cp) :
    chainFrom 2 (process_pdf_and_stream_to_gsheet cp cb (some pages)).calls ∧
    (∃ t, (process_pdf_and_stream_to_gsheet cp cb (some pages)).total = some t ∧
      (process_pdf_and_stream_to_gsheet cp cb (some pages)).finalRow = 2 + t) ∧
    List.Chain' (· ≤ ·)
      ((process_pdf_and_stream_to_gsheet cp cb (some pages)).calls.map Prod.fst ++
        [(process_pdf_and_stream_to_gsheet cp cb (some pages)).finalRow]) := by
  obtain ⟨⟨h1, h2, h3⟩, hch⟩ := run_inv cp cb pages
  rw [hch] at h1
  simp only [List.length_nil, Nat.add_zero] at h1
  simp only [process_pdf_and_stream_to_gsheet, init_worksheet_with_header]
  refine ⟨h3, ⟨_, rfl, ?_⟩, ?_⟩
  · rw [h2, h1]
  · have hc := chainFrom_chain' _ 2 h3
    rw [h2]
    exact hc

/-- Witness for `write_position_chain` on the five-page document. -/
theorem write_position_chain_w :
    0 < 2 ∧
    (chainFrom 2 (process_pdf_and_stream_to_gsheet 2 false (some fiveDoc)).calls ∧
      (∃ t, (process_pdf_and_stream_to_gsheet 2 false (some fiveDoc)).total = some t ∧
        (process_pdf_and_stream_to_gsheet 2 false (some fiveDoc)).finalRow = 2 + t) ∧
      List.Chain' (· ≤ ·)
        ((process_pdf_and_stream_to_gsheet 2 false (some fiveDoc)).calls.map Prod.fst ++
          [(process_pdf_and_stream_to_gsheet 2 false (some fiveDoc)).finalRow])) :=
  ⟨by decide, write_position_chain 2 false fiveDoc (by decide)⟩

/-! ### Progress-notification placement -/

/-- Recognizer for progress-callback invocations in a trace. -/
def isProgress : Event → Bool
  | Event.progressEv _ _ => true
  | _ => false

/-- Recognizer for the page-processed markers in a trace. -/
def isScan : Event → Bool
  | Event.pageScanned _ _ => true
  | _ => false

lemma scanPage_falsy (p : Page) (h : tableTruthy p = false) : scanPage p = [] := by
  match p with
  | none => rfl
  | some [] => rfl
  | some (_ :: _) => simp [tableTruthy] at h

lemma pageStep_trace_cons (cp N idx : Nat) (st : LoopSt) (p : Page) (hN : 0 < N) :
    ∃ tail, (pageStep cp N true idx st p).trace =
      st.trace ++ Event.progressEv idx N :: Event.pageScanned idx (scanPage p) :: tail := by
  simp only [pageStep]
  rw [if_pos (⟨trivial, hN⟩ : True ∧ 0 < N)]
  split
  · split
    · exact ⟨_, rfl⟩
    · exact ⟨[], rfl⟩
  · rename_i htr
    refine ⟨[], ?_⟩
    rw [scanPage_falsy p (by simpa using htr)]
    rfl

lemma append_chunk_ops_no_progress (b : List TransactionRecord) (r : Nat) :
    ((append_chunk_to_worksheet b r).1).filter isProgress = [] := by
  cases b <;> simp [append_chunk_to_worksheet, isProgress]

lemma pageStep_filter_progress (cp N idx : Nat) (st : LoopSt) (p : Page) (hN : 0 < N) :
    ((pageStep cp N true idx st p).trace).filter isProgress
      = st.trace.filter isProgress ++ [Event.progressEv idx N] := by
  simp only [pageStep]
  rw [if_pos (⟨trivial, hN⟩ : True ∧ 0 < N)]
  split
  · split
    · simp [List.filter_append, isProgress, append_chunk_ops_no_progress]
    · simp [List.filter_append, isProgress]
  · simp [List.filter_append, isProgress]

lemma runPages_filter_progress (cp N : Nat) (hN : 0 < N) (ps : List Page) :
    ∀ (idx : Nat) (st : LoopSt),
      ((runPages cp N true idx st ps).trace).filter isProgress
        = st.trace.filter isProgress ++
            (List.range' idx ps.length).map (fun k => Event.progressEv k N) := by
  induction ps with
  | nil => intro idx st; simp [runPages]
  | cons p ps ih =>
      intro idx st
      rw [runPages, ih (idx + 1) _, pageStep_filter_progress cp N idx st p hN,
        List.length_cons, List.range'_succ, List.map_cons, List.append_assoc]
      rfl

lemma finalFlush_filter_progress (st : LoopSt) :
    ((finalFlush st).trace).filter isProgress = st.trace.filter isProgress := by
  unfold finalFlush
  split
  · simp [List.filter_append, append_chunk_ops_no_progress]
  · rfl

/-- The progress-callback-independent part of the loop state. -/
def coreSt (st : LoopSt) :
    Nat × List TransactionRecord × Nat × List (Nat × List TransactionRecord) :=
  (st.total, st.chunk, st.nextRow, st.calls)

lemma pageStep_core (cp N : Nat) (cb cb' : Bool) (idx : Nat) (st st' : LoopSt) (p : Page)
    (h : coreSt st = coreSt st') :
    coreSt (pageStep cp N cb idx st p) = coreSt (pageStep cp N cb' idx st' p) := by
  obtain ⟨t, ch, nr, cl, tr⟩ := st
  obtain ⟨t', ch', nr', cl', tr'⟩ := st'
  simp only [coreSt, Prod.mk.injEq] at h
  obtain ⟨h1, h2, h3, h4⟩ := h
  subst h1; subst h2; subst h3; subst h4
  simp only [pageStep, coreSt]
  split
  · split
    · rfl
    · rfl
  · rfl

lemma runPages_core (cp N : Nat) (cb cb' : Bool) (ps : List Page) :
    ∀ (idx : Nat) (st st' : LoopSt), coreSt st = coreSt st' →
      coreSt (runPages cp N cb idx st ps) = coreSt (runPages cp N cb' idx st' ps) := by
  induction ps with
  | nil => exact fun idx st st' h => h
  | cons p ps ih =>
      exact fun idx st st' h => ih (idx + 1) _ _ (pageStep_core cp N cb cb' idx st st' p h)

lemma finalFlush_core (st st' : LoopSt) (h : coreSt st = coreSt st') :
    coreSt (finalFlush st) = coreSt (finalFlush st') := by
  obtain ⟨t, ch, nr, cl, tr⟩ := st
  obtain ⟨t', ch', nr', cl', tr'⟩ := st'
  simp only [coreSt, Prod.mk.injEq] at h
  obtain ⟨h1, h2, h3, h4⟩ := h
  subst h1; subst h2; subst h3; subst h4
  simp only [finalFlush, coreSt]
  split
  · rfl
  · rfl

/-- C7 counterexample: on a one-page document with a progress callback
supplied, exactly one progress notification and one page-processed marker
occur, and the notification comes strictly before the marker — the
callback is invoked at the top of the loop iteration, before the page's
records are scanned and accumulated, contradicting the claim that it is
emitted after the page has been processed. -/
theorem progress_cex :
    ((process_pdf_and_stream_to_gsheet 50 true (some [onerec])).trace.filter
      isProgress).length = 1 ∧
    ((process_pdf_and_stream_to_gsheet 50 true (some [onerec])).trace.filter
      isScan).length = 1 ∧
    (process_pdf_and_stream_to_gsheet 50 true (some [onerec])).trace.findIdx isProgress <
      (process_pdf_and_stream_to_gsheet 50 true (some [onerec])).trace.findIdx isScan := by
  refine ⟨by decide, by decide, by decide⟩

/-- C7 amended: with a callback supplied the driver emits exactly one
progress notification per page, carrying the 1-based page index and the
total page count, in page order; the notification for page k is emitted
at the start of page k's iteration — before page k's records are scanned
and accumulated (and after all earlier pages are processed); and the
notifications never affect control flow or the produced records: the
returned total, the final write position and the batch-append calls are
identical with and without a callback. -/
theorem progress_spec :
    (∀ (cp : Nat) (pages : List Page),
        (process_pdf_and_stream_to_gsheet cp true (some pages)).trace.filter isProgress
          = (List.range' 1 pages.length).map (fun k => Event.progressEv k pages.length)) ∧
    (∀ (cp N idx : Nat) (st : LoopSt) (p : Page), 0 < N → ∃ tail,
        (pageStep cp N true idx st p).trace
          = st.trace ++ Event.progressEv idx N ::
              Event.pageScanned idx (scanPage p) :: tail) ∧
    (∀ (cp : Nat) (pages : List Page),
        ((process_pdf_and_stream_to_gsheet cp true (some pages)).total,
         (process_pdf_and_stream_to_gsheet cp true (some pages)).finalRow,
         (process_pdf_and_stream_to_gsheet cp true (some pages)).calls)
          = ((process_pdf_and_stream_to_gsheet cp false (some pages)).total,
             (process_pdf_and_stream_to_gsheet cp false (some pages)).finalRow,
             (process_pdf_and_stream_to_gsheet cp false (some pages)).calls)) := by
  refine ⟨?_, fun cp N idx st p hN => pageStep_trace_cons cp N idx st p hN, ?_⟩
  · intro cp pages
    cases pages with
    | nil => rfl
    | cons p ps =>
        have hN : 0 < (p :: ps).length := by simp
        simp only [process_pdf_and_stream_to_gsheet, init_worksheet_with_header]
        rw [finalFlush_filter_progress, runPages_filter_progress cp (p :: ps).length hN]
        simp [isProgress]
  · intro cp pages
    have h := finalFlush_core _ _ (runPages_core cp pages.length true false pages 1
      ⟨0, [], 2, [], [Event.sheetClear, Event.sheetUpdate 1 [ORDERED_COLS]]⟩
      ⟨0, [], 2, [], [Event.sheetClear, Event.sheetUpdate 1 [ORDERED_COLS]]⟩ rfl)
    simp only [coreSt, Prod.mk.injEq] at h
    obtain ⟨h1, h2, h3, h4⟩ := h
    simp only [process_pdf_and_stream_to_gsheet, init_worksheet_with_header, Prod.mk.injEq]
    exact ⟨congrArg some h1, h3, h4⟩

/-- Witness for `progress_spec` at a concrete page step. -/
theorem progress_spec_w :
    0 < 1 ∧ ∃ tail,
      (pageStep 50 1 true 1 ⟨0, [], 2, [], []⟩ onerec).trace
        = ([] : List Event) ++ Event.progressEv 1 1 ::
            Event.pageScanned 1 (scanPage onerec) :: tail :=
  ⟨by decide, progress_spec.2.1 50 1 1 ⟨0, [], 2, [], []⟩ onerec (by decide)⟩

/-- C9 evaluated on the failing input: a null cell within the first 8
positions survives normalization as a null (the padding cells, in
contrast, are empty strings), and serialization turns it into the string
"None", not the empty string — `astype(str)` runs before `fillna("")`,
so the fill never applies. -/
theorem null_cell_passthrough :
    normalize [none] =
      [("Posting Date", none), ("Value Date", some ""), ("Transaction Branch", some ""),
       ("Reference Number", some ""), ("Description", some ""), ("Debit", some ""),
       ("Credit", some ""), ("Balance", some "")] ∧
    serializeRecord (normalize [none]) = ["None", "", "", "", "", "", "", ""] ∧
    serializeCell none ≠ "" := by
  refine ⟨by decide, by decide, by decide⟩

end BankApp
